import Mathlib

/-!
# Verification of the CoreLayer security-mediation layer

A shallow embedding, in Lean 4, of the security-critical parts of the
CoreLayer AI HyperVisor desktop application:

* the IPC channel whitelist and bridge entry points (`preload.js`),
* the recursive input sanitizer (`preload.js`, `sanitizeInput`),
* the PowerShell command-safety filter and its deny-pattern list
  (main process, `isCommandSafe` / `BLOCKED_PATTERNS`),
* the sliding-window rate limiter (`isRateLimited`) and the
  `run-hyperv-cmd` IPC handler that composes the two checks,
* the client-side task tracker (`createTask`, `updateTaskProgress`,
  `completeTask`, `cancelTask`, `clearCompletedTasks` and the
  30-second auto-removal timer).

JS strings are embedded as `String`/`List Char`, JS numbers used as task
progress as `Int`, timestamps (`Date.now()`, `new Date()`) as `Nat`
milliseconds.  The JS regular expressions are embedded via a small
executable backtracking regex engine (`RE`, `matL`) covering exactly the
feature set the source uses: literal characters (with the `i` flag),
character classes, `.`, `\s`, `\w`, greedy `*`/`+`/`?`, alternation, and
negative lookahead; `String.prototype.replace` with a global regex is
embedded as `replaceGlobal` (one left-to-right pass over the original
string, deleting non-overlapping leftmost matches) and
`String.prototype.match` with a global regex as `globalMatches`.
-/

namespace CoreLayer

/-! ## A small executable regex engine -/

/-- Regular-expression abstract syntax: the JS `RegExp` features used by the
repository (character classes, sequencing, alternation, greedy star, negative
lookahead `(?!...)`). -/
inductive RE where
  | eps : RE
  | cls : (Char → Bool) → RE
  | seq : RE → RE → RE
  | alt : RE → RE → RE
  | star : RE → RE
  | nla : RE → RE

def reSize : RE → Nat
  | .eps => 1
  | .cls _ => 1
  | .seq a b => reSize a + reSize b + 1
  | .alt a b => reSize a + reSize b + 1
  | .star a => reSize a + 1
  | .nla a => reSize a + 1

/-- Fueled CPS backtracking matcher.  Alternatives are tried left-first and
`star` is greedy (iterate-first), which is JS priority order.  A `star`
iteration must consume at least one character; every star body appearing in
this development is non-nullable, so this agrees with JS semantics.  The fuel
passed by `matchLen` is far larger than the maximal backtracking depth, which
is bounded by the regex size plus the number of characters consumed. -/
def matL : Nat → RE → List Char → (List Char → Option Nat) → Option Nat
  | 0, _, _, _ => none
  | _ + 1, .eps, s, k => k s
  | _ + 1, .cls _, [], _ => none
  | _ + 1, .cls p, c :: cs, k => if p c then k cs else none
  | f + 1, .seq r1 r2, s, k => matL f r1 s (fun s2 => matL f r2 s2 k)
  | f + 1, .alt r1 r2, s, k =>
      match matL f r1 s k with
      | some n => some n
      | none => matL f r2 s k
  | f + 1, .star r, s, k =>
      match matL f r s (fun s2 => if s2.length < s.length then matL f (.star r) s2 k else none) with
      | some n => some n
      | none => k s
  | f + 1, .nla r, s, k =>
      match matL f r s (fun _ => some 0) with
      | some _ => none
      | none => k s

/-- Length (in characters) of the leftmost-priority match of `r` at the start
of `s`, if any. -/
def matchLen (r : RE) (s : List Char) : Option Nat :=
  matL ((reSize r + 2) * (s.length + 2) * 2) r s (fun rest => some (s.length - rest.length))

/-- Is there a match of `r` starting at some position of `l`?  This is
`regex.test(s)` for an unanchored JS regex. -/
def existsMatchB (r : RE) : List Char → Bool
  | [] => (matchLen r []).isSome
  | c :: cs => (matchLen r (c :: cs)).isSome || existsMatchB r cs

/-- `regex.test(s)` for an unanchored regex. -/
def reTest (r : RE) (s : String) : Bool := existsMatchB r s.data

/-- `regex.test(s)` for a regex anchored at the start (`/^.../`). -/
def reTestStart (r : RE) (s : String) : Bool := (matchLen r s.data).isSome

/-- One pass of `s.replace(re, '')` with a global regex: scan the original
string left to right; at each position delete the leftmost-priority match and
resume scanning right after it (deletions are never re-scanned, so deleting a
match can splice together a new occurrence).  The fuel is the remaining
string length, which the scan never exhausts; a (here impossible) empty match
is skipped by advancing one character, as JS does. -/
def replaceGlobalAux : Nat → RE → List Char → List Char
  | 0, _, s => s
  | _ + 1, _, [] => []
  | f + 1, r, c :: cs =>
      match matchLen r (c :: cs) with
      | some (n + 1) => replaceGlobalAux f r (cs.drop n)
      | _ => c :: replaceGlobalAux f r cs

def replaceGlobal (r : RE) (s : List Char) : List Char := replaceGlobalAux s.length r s

/-- Does `pat` occur as a contiguous substring of the list? -/
def containsSub (pat : List Char) : List Char → Bool
  | [] => pat.isPrefixOf []
  | c :: cs => pat.isPrefixOf (c :: cs) || containsSub pat cs

/-- `s.match(re)` with a global regex, as the list of matched substrings
(`[]` when JS returns `null`). -/
def globalMatchesAux : Nat → RE → List Char → List (List Char)
  | 0, _, _ => []
  | _ + 1, _, [] => []
  | f + 1, r, c :: cs =>
      match matchLen r (c :: cs) with
      | some (n + 1) => ((c :: cs).take (n + 1)) :: globalMatchesAux f r (cs.drop n)
      | _ => globalMatchesAux f r cs

def globalMatches (r : RE) (s : List Char) : List (List Char) := globalMatchesAux s.length r s

/-! ### Character classes and literals -/

/-- A single character, case-insensitively (`i` flag). -/
def chi (c : Char) : RE := .cls (fun x => x.toLower = c.toLower)

/-- A single character, case-sensitively. -/
def chx (c : Char) : RE := .cls (fun x => x = c)

/-- A case-insensitive literal. -/
def litCI (s : String) : RE := s.data.foldr (fun c r => RE.seq (chi c) r) RE.eps

/-- JS `\w`: `[A-Za-z0-9_]`. -/
def reWord : RE := .cls (fun c => c.isAlpha || c.isDigit || c = '_')

/-- JS `\s` (the ASCII part; the source strings are ASCII). -/
def reSpace : RE := .cls (fun c =>
  c = ' ' || c = '\t' || c = '\n' || c = '\r' || c = Char.ofNat 11 || c = Char.ofNat 12)

/-- JS `.`: any character but a line terminator. -/
def reDot : RE := .cls (fun c =>
  !(c = '\n' || c = '\r' || c = Char.ofNat 8232 || c = Char.ofNat 8233))

/-- Greedy `+`. -/
def rePlus (r : RE) : RE := .seq r (.star r)

/-- Greedy `?`. -/
def reOpt (r : RE) : RE := .alt r .eps

/-! ## Input sanitizer (`preload.js`, `sanitizeInput`) -/

/-- `/<script\b[^<]*(?:(?!<\/script>)<[^<]*)*<\/script>/gi`.  The `\b` sits
after the word character `t`, so it is exactly `(?!\w)` there. -/
def pScript : RE :=
  .seq (litCI "<script")
    (.seq (.nla reWord)
      (.seq (.star (.cls (fun c => !(c = '<'))))
        (.seq (.star (.seq (.nla (litCI "</script>"))
                           (.seq (chx '<') (.star (.cls (fun c => !(c = '<')))))))
          (litCI "</script>"))))

/-- `/javascript:/gi`. -/
def pJs : RE := litCI "javascript:"

/-- `/on\w+\s*=/gi`. -/
def pOn : RE := .seq (chi 'o') (.seq (chi 'n') (.seq (rePlus reWord) (.seq (.star reSpace) (chx '='))))

/-- The string branch of `sanitizeInput`: the three `.replace(..., '')` calls
in source order. -/
def sanitizeStr (s : String) : String :=
  String.mk (replaceGlobal pOn (replaceGlobal pJs (replaceGlobal pScript s.data)))

/-- JS values crossing the bridge: strings, numbers, booleans, `null`,
`undefined`, arrays and (string-keyed, insertion-ordered) objects. -/
inductive Value where
  | str (s : String) : Value
  | num (n : Int) : Value
  | bool (b : Bool) : Value
  | null : Value
  | undef : Value
  | arr (xs : List Value) : Value
  | obj (kvs : List (String × Value)) : Value
deriving Repr

mutual

/-- `sanitizeInput` from `preload.js`: strings get the three pattern
replacements, arrays are sanitized element-wise, objects value-wise with keys
unchanged, all other values are returned unchanged. -/
def sanitizeInput : Value → Value
  | .str s => .str (sanitizeStr s)
  | .num n => .num n
  | .bool b => .bool b
  | .null => .null
  | .undef => .undef
  | .arr xs => .arr (sanitizeArr xs)
  | .obj kvs => .obj (sanitizeObj kvs)

def sanitizeArr : List Value → List Value
  | [] => []
  | v :: vs => sanitizeInput v :: sanitizeArr vs

def sanitizeObj : List (String × Value) → List (String × Value)
  | [] => []
  | (k, v) :: kvs => (k, sanitizeInput v) :: sanitizeObj kvs

end

/-- A string in which none of the three blocked patterns occurs. -/
def strPatternFree (s : String) : Bool :=
  !existsMatchB pScript s.data && !existsMatchB pJs s.data && !existsMatchB pOn s.data

mutual

/-- Every string anywhere inside the value is free of the three blocked
patterns. -/
def patternFree : Value → Bool
  | .str s => strPatternFree s
  | .num _ => true
  | .bool _ => true
  | .null => true
  | .undef => true
  | .arr xs => patternFreeArr xs
  | .obj kvs => patternFreeObj kvs

def patternFreeArr : List Value → Bool
  | [] => true
  | v :: vs => patternFree v && patternFreeArr vs

def patternFreeObj : List (String × Value) → Bool
  | [] => true
  | (_, v) :: kvs => patternFree v && patternFreeObj kvs

end

/-! ## Channel whitelist and IPC bridge entry points (`preload.js`) -/

/-- Whitelist of allowed IPC channels for `invoke` (request-response). -/
def ALLOWED_INVOKE_CHANNELS : List String := [
  "run-hyperv-cmd", "execute-powershell", "get-vms", "get-vm-details",
  "start-vm", "stop-vm", "restart-vm", "shutdown-vm", "turnoff-vm",
  "delete-vm", "edit-vm", "launch-vmconnect", "check-hyperv",
  "get-physical-disks", "get-storage-pools", "get-volumes",
  "get-virtual-disks", "delete-virtual-disk", "get-vhds", "create-vhd",
  "attach-vhd", "detach-vhd", "resize-vhd", "convert-vhd", "compact-vhd",
  "delete-vhd", "get-vm-stores", "optimize-disk", "check-disk-health",
  "get-iso-library", "add-iso", "remove-iso", "browse-for-iso",
  "get-checkpoints", "create-checkpoint", "apply-checkpoint",
  "remove-checkpoint", "get-cluster-nodes", "get-cluster-status",
  "live-migrate-vm", "get-system-stats", "get-host-info",
  "get-resource-path", "get-app-icon-base64", "show-open-dialog",
  "show-save-dialog", "get-qos-policies", "create-qos-policy",
  "edit-qos-policy", "delete-qos-policy"]

/-- Whitelist of allowed IPC channels for `send` (one-way). -/
def ALLOWED_SEND_CHANNELS : List String :=
  ["app-ready", "window-minimize", "window-maximize", "window-close"]

/-- Whitelist of allowed IPC channels for `receive` (from main). -/
def ALLOWED_RECEIVE_CHANNELS : List String :=
  ["vm-status-update", "task-progress", "notification"]

/-- `isValidChannel` from `preload.js`: `allowedChannels.includes(channel)`.
The `typeof channel === 'string'` guard is subsumed by the `String` type of
the embedding. -/
def isValidChannel (channel : String) (allowedChannels : List String) : Bool :=
  allowedChannels.contains channel

/-- Observable outcome of `api.invoke`: either the promise rejects with an
authorization error, or the call is forwarded to `ipcRenderer.invoke` with
the sanitized arguments (the privileged side). -/
inductive InvokeOutcome where
  | rejected (message : String)
  | forwarded (channel : String) (args : List Value)
deriving Repr

/-- `api.invoke(channel, ...args)`: whitelist check, then sanitize every
argument and forward. -/
def invoke (channel : String) (args : List Value) : InvokeOutcome :=
  if isValidChannel channel ALLOWED_INVOKE_CHANNELS then
    .forwarded channel (args.map sanitizeInput)
  else
    .rejected ("IPC channel \"" ++ channel ++ "\" is not allowed")

/-- `api.send(channel, ...args)`: `none` models the silent drop (log only,
nothing sent); `some` carries what reaches `ipcRenderer.send`. -/
def send (channel : String) (args : List Value) : Option (String × List Value) :=
  if isValidChannel channel ALLOWED_SEND_CHANNELS then
    some (channel, args.map sanitizeInput)
  else
    none

/-- Observable outcome of `api.on`: either a listener is registered on the
channel (and the returned closure unsubscribes it), or nothing is registered
and the returned closure is a no-op. -/
inductive SubscribeOutcome where
  | registered (channel : String)
  | noopUnsubscribe
deriving DecidableEq, Repr

/-- `api.on(channel, callback)`. -/
def apiOn (channel : String) : SubscribeOutcome :=
  if isValidChannel channel ALLOWED_RECEIVE_CHANNELS then
    .registered channel
  else
    .noopUnsubscribe

/-! ## Command safety filter (main process) -/

/-- Allowed PowerShell cmdlets (whitelist approach for Hyper-V management). -/
def ALLOWED_CMDLETS : List String := [
  "Get-VM", "Start-VM", "Stop-VM", "Restart-VM", "Remove-VM", "New-VM",
  "Set-VM", "Get-VMHost", "Set-VMHost", "Suspend-VM", "Resume-VM",
  "Save-VM", "Export-VM", "Import-VM", "Measure-VM", "Compare-VM",
  "Get-VMProcessor", "Set-VMProcessor", "Get-VMMemory", "Set-VMMemory",
  "Get-VMNetworkAdapter", "Add-VMNetworkAdapter", "Remove-VMNetworkAdapter",
  "Set-VMNetworkAdapter", "Get-VMHardDiskDrive", "Add-VMHardDiskDrive",
  "Remove-VMHardDiskDrive", "Set-VMHardDiskDrive", "Get-VMDvdDrive",
  "Add-VMDvdDrive", "Remove-VMDvdDrive", "Set-VMDvdDrive",
  "Get-VMFirmware", "Set-VMFirmware", "Get-VMBios", "Set-VMBios",
  "Get-VMIntegrationService", "Enable-VMIntegrationService", "Disable-VMIntegrationService",
  "Get-VMSnapshot", "Checkpoint-VM", "Remove-VMSnapshot", "Restore-VMSnapshot",
  "Rename-VMSnapshot", "Get-VMCheckpoint", "Remove-VMCheckpoint", "Restore-VMCheckpoint",
  "Get-VHD", "New-VHD", "Resize-VHD", "Convert-VHD", "Optimize-VHD",
  "Mount-VHD", "Dismount-VHD", "Test-VHD", "Set-VHD", "Merge-VHD",
  "Get-VMStoragePath", "Get-PhysicalDisk", "Get-Disk", "Get-Partition",
  "Get-Volume", "Get-StoragePool", "Optimize-Volume",
  "Get-VMSwitch", "New-VMSwitch", "Remove-VMSwitch", "Set-VMSwitch",
  "Get-VMSwitchExtension", "Get-NetAdapter", "Get-NetIPAddress",
  "Get-Cluster", "Get-ClusterNode", "Get-ClusterGroup", "Get-ClusterResource",
  "Move-ClusterVirtualMachineRole", "Get-ClusterSharedVolume",
  "Get-IscsiTarget", "Get-IscsiSession", "Get-IscsiConnection",
  "Connect-IscsiTarget", "Disconnect-IscsiTarget", "Get-InitiatorPort",
  "Get-MSDSMSupportedHW", "Get-MSDSMGlobalDefaultLoadBalancePolicy",
  "Get-Counter", "Get-CimInstance", "Get-WmiObject", "Get-Process",
  "Get-Module", "Get-Command", "Get-Service", "Get-ChildItem",
  "Test-Path", "Get-Content", "Get-Item", "Get-ItemProperty",
  "Measure-Object", "Select-Object", "Where-Object", "ForEach-Object",
  "Sort-Object", "Format-List", "ConvertTo-Json", "Write-Output"]

/-- `['"]`: a single or double quote. -/
def reQuote : RE := .cls (fun c => c = Char.ofNat 39 || c = Char.ofNat 34)

/-- `[a-z]` (or `[A-Z]`) under the `i` flag: any ASCII letter. -/
def reLetterCI : RE := .cls Char.isAlpha

/-- Dangerous patterns that should NEVER be executed (`BLOCKED_PATTERNS`),
in source order; every pattern carries the `i` flag. -/
def BLOCKED_PATTERNS : List RE := [
  -- /Remove-Item\s+.*\s*-Recurse/i
  .seq (litCI "Remove-Item") (.seq (rePlus reSpace) (.seq (.star reDot) (.seq (.star reSpace) (litCI "-Recurse")))),
  -- /Remove-Item\s+['"]?[A-Z]:\\/i
  .seq (litCI "Remove-Item") (.seq (rePlus reSpace) (.seq (reOpt reQuote) (.seq reLetterCI (litCI ":\\")))),
  -- /del\s+\/[sqf]/i
  .seq (litCI "del") (.seq (rePlus reSpace) (.seq (chx '/') (.cls (fun c => c.toLower = 's' || c.toLower = 'q' || c.toLower = 'f')))),
  -- /rmdir\s+\/s/i
  .seq (litCI "rmdir") (.seq (rePlus reSpace) (litCI "/s")),
  -- /format\s+[a-z]:/i
  .seq (litCI "format") (.seq (rePlus reSpace) (.seq reLetterCI (chx ':'))),
  -- /New-ItemProperty/i
  litCI "New-ItemProperty",
  -- /Set-ItemProperty.*HKLM/i
  .seq (litCI "Set-ItemProperty") (.seq (.star reDot) (litCI "HKLM")),
  -- /Set-ItemProperty.*HKCU.*\\Run/i
  .seq (litCI "Set-ItemProperty") (.seq (.star reDot) (.seq (litCI "HKCU") (.seq (.star reDot) (litCI "\\Run")))),
  -- /Remove-ItemProperty.*HKLM/i
  .seq (litCI "Remove-ItemProperty") (.seq (.star reDot) (litCI "HKLM")),
  -- /reg\s+add/i
  .seq (litCI "reg") (.seq (rePlus reSpace) (litCI "add")),
  -- /reg\s+delete/i
  .seq (litCI "reg") (.seq (rePlus reSpace) (litCI "delete")),
  -- /New-ScheduledTask/i
  litCI "New-ScheduledTask",
  -- /Register-ScheduledTask/i
  litCI "Register-ScheduledTask",
  -- /schtasks\s+\/create/i
  .seq (litCI "schtasks") (.seq (rePlus reSpace) (litCI "/create")),
  -- /Startup.*\.lnk/i
  .seq (litCI "Startup") (.seq (.star reDot) (litCI ".lnk")),
  -- /\\Start Menu\\Programs\\Startup/i
  litCI "\\Start Menu\\Programs\\Startup",
  -- /Invoke-WebRequest(?!.*localhost)/i
  .seq (litCI "Invoke-WebRequest") (.nla (.seq (.star reDot) (litCI "localhost"))),
  -- /Invoke-RestMethod(?!.*localhost)/i
  .seq (litCI "Invoke-RestMethod") (.nla (.seq (.star reDot) (litCI "localhost"))),
  -- /Start-BitsTransfer/i
  litCI "Start-BitsTransfer",
  -- /\[Net\.WebClient\]/i
  litCI "[Net.WebClient]",
  -- /curl\s+/i
  .seq (litCI "curl") (rePlus reSpace),
  -- /wget\s+/i
  .seq (litCI "wget") (rePlus reSpace),
  -- /Get-Credential/i
  litCI "Get-Credential",
  -- /ConvertTo-SecureString/i
  litCI "ConvertTo-SecureString",
  -- /mimikatz/i
  litCI "mimikatz",
  -- /-Credential/i
  litCI "-Credential",
  -- /Invoke-Expression/i
  litCI "Invoke-Expression",
  -- /IEX\s*\(/i
  .seq (litCI "IEX") (.seq (.star reSpace) (chx '(')),
  -- /Invoke-Command.*-ScriptBlock/i
  .seq (litCI "Invoke-Command") (.seq (.star reDot) (litCI "-ScriptBlock")),
  -- /\[System\.Reflection/i
  litCI "[System.Reflection",
  -- /Add-Type.*-TypeDefinition/i
  .seq (litCI "Add-Type") (.seq (.star reDot) (litCI "-TypeDefinition")),
  -- /New-Object.*Net\.Sockets/i
  .seq (litCI "New-Object") (.seq (.star reDot) (litCI "Net.Sockets")),
  -- /\$ExecutionContext/i
  litCI "$ExecutionContext",
  -- /DownloadString/i
  litCI "DownloadString",
  -- /DownloadFile/i
  litCI "DownloadFile",
  -- /EncodedCommand/i
  litCI "EncodedCommand",
  -- /-enc\s+/i
  .seq (litCI "-enc") (rePlus reSpace),
  -- /FromBase64String/i
  litCI "FromBase64String",
  -- /Stop-Service(?!.*vmms)/i
  .seq (litCI "Stop-Service") (.nla (.seq (.star reDot) (litCI "vmms"))),
  -- /Remove-Service/i
  litCI "Remove-Service",
  -- /New-Service/i
  litCI "New-Service",
  -- /Stop-Process(?!.*vmconnect)/i
  .seq (litCI "Stop-Process") (.nla (.seq (.star reDot) (litCI "vmconnect"))),
  -- /Start-Process(?!.*vmconnect)/i
  .seq (litCI "Start-Process") (.nla (.seq (.star reDot) (litCI "vmconnect"))),
  -- /Set-NetFirewallProfile.*-Enabled.*False/i
  .seq (litCI "Set-NetFirewallProfile") (.seq (.star reDot) (.seq (litCI "-Enabled") (.seq (.star reDot) (litCI "False")))),
  -- /Disable-NetFirewallRule/i
  litCI "Disable-NetFirewallRule",
  -- /netsh.*firewall.*disable/i
  .seq (litCI "netsh") (.seq (.star reDot) (.seq (litCI "firewall") (.seq (.star reDot) (litCI "disable")))),
  -- /Set-MpPreference.*-Disable/i
  .seq (litCI "Set-MpPreference") (.seq (.star reDot) (litCI "-Disable")),
  -- /Uninstall.*Defender/i
  .seq (litCI "Uninstall") (.seq (.star reDot) (litCI "Defender")),
  -- /\\Windows\\System32\\config/i
  litCI "\\Windows\\System32\\config",
  -- /\\Windows\\System32\\drivers/i
  litCI "\\Windows\\System32\\drivers",
  -- /\\Windows\\SysWOW64/i
  litCI "\\Windows\\SysWOW64"]

/-- `/([A-Z][a-z]+-[A-Z][a-zA-Z]+)/g` — candidate cmdlet tokens; this one is
case-sensitive. -/
def cmdletRE : RE :=
  .seq (.cls Char.isUpper)
    (.seq (rePlus (.cls Char.isLower))
      (.seq (chx '-') (.seq (.cls Char.isUpper) (rePlus (.cls Char.isAlpha)))))

/-- `/^\s*\$[a-z]/i` — a variable assignment-style command. -/
def varAssignRE : RE := .seq (.star reSpace) (.seq (chx '$') reLetterCI)

/-- `/ConvertTo-Json|Write-Output/i` — an output-formatting expression. -/
def outputFmtRE : RE := .alt (litCI "ConvertTo-Json") (litCI "Write-Output")

/-- `/^(Get-|Select-|Where-|ForEach-|Sort-|Format-|Measure-|Out-|Write-)/i`
— prefixes of cmdlets treated as generally safe read/format operations in
the (log-only) unrecognized-cmdlet loop. -/
def safePrefixRE : RE :=
  .alt (litCI "Get-") (.alt (litCI "Select-") (.alt (litCI "Where-")
    (.alt (litCI "ForEach-") (.alt (litCI "Sort-") (.alt (litCI "Format-")
      (.alt (litCI "Measure-") (.alt (litCI "Out-") (litCI "Write-"))))))))

/-- The safety verdict `{safe, reason}`. -/
structure Verdict where
  safe : Bool
  reason : Option String := none
deriving DecidableEq, Repr

/-- The cmdlet tokens the source's final loop would log as unrecognized
(tokens outside `ALLOWED_CMDLETS` whose prefix is not in `safePrefixRE`).
The loop only logs — it never changes the verdict. -/
def unrecognizedCmdlets (command : String) : List String :=
  ((globalMatches cmdletRE command.data).map String.mk).filter
    (fun c => !ALLOWED_CMDLETS.contains c && !(matchLen safePrefixRE c.data).isSome)

/-- `isCommandSafe` from the main process.  The JS loop over
`BLOCKED_PATTERNS` returns on the first matching pattern; every match
produces the same verdict, so the fold to `List.any` is exact.  The final
loop over the found cmdlets only logs unrecognized names and cannot change
the verdict, so both remaining control paths end in the default safe
verdict. -/
def isCommandSafe (command : String) : Verdict :=
  if command = "" then { safe := false, reason := some "Invalid command" }
  else if BLOCKED_PATTERNS.any (fun p => reTest p command) then
    { safe := false, reason := some "Command contains blocked pattern" }
  else
    let foundCmdlets := globalMatches cmdletRE command.data
    if foundCmdlets.length = 0 then
      if reTestStart varAssignRE command || reTest outputFmtRE command then
        { safe := true }
      else
        -- JS falls through the (empty) cmdlet loop to the default verdict.
        { safe := true }
    else
      -- The cmdlet loop logs `unrecognizedCmdlets` but blocks nothing.
      { safe := true }

/-! ## Rate limiter and the `run-hyperv-cmd` handler -/

def RATE_LIMIT_WINDOW : Nat := 1000

def RATE_LIMIT_MAX : Nat := 10

/-- `isRateLimited()`, with the mutable `commandHistory` made explicit:
drop the expired prefix, reject without recording when the window is full,
otherwise record `now` and pass. -/
def isRateLimited (now : Nat) (hist : List Nat) : Bool × List Nat :=
  let pruned := hist.dropWhile (fun t => decide (t < now - RATE_LIMIT_WINDOW))
  if RATE_LIMIT_MAX ≤ pruned.length then (true, pruned)
  else (false, pruned ++ [now])

/-- A sequence of `isRateLimited` checks at the given times, threading the
history; returns the verdicts in order and the final history. -/
def runCalls (hist : List Nat) : List Nat → List Bool × List Nat
  | [] => ([], hist)
  | n :: ns =>
    let r := isRateLimited n hist
    let rest := runCalls r.2 ns
    (r.1 :: rest.1, rest.2)

/-- Observable outcome of the `run-hyperv-cmd` IPC handler. -/
inductive CmdOutcome where
  | rateLimitError
  | securityError
  | executed (command : String)
deriving DecidableEq, Repr

/-- `sanitizeCommand`: remove null bytes. -/
def sanitizeCommand (command : String) : String :=
  String.mk (command.data.filter (fun c => !(c = Char.ofNat 0)))

/-- `.replace(/"/g, '`"')`. -/
def escapeQuotes (l : List Char) : List Char :=
  l.foldr (fun c acc => if c = Char.ofNat 34 then Char.ofNat 96 :: Char.ofNat 34 :: acc else c :: acc) []

/-- `.replace(/\r?\n/g, ' ')`. -/
def collapseNewlines : List Char → List Char
  | [] => []
  | '\r' :: '\n' :: rest => ' ' :: collapseNewlines rest
  | '\n' :: rest => ' ' :: collapseNewlines rest
  | c :: rest => c :: collapseNewlines rest

/-- The command string embedded into the PowerShell invocation. -/
def cleanCommand (command : String) : String :=
  String.mk (collapseNewlines (escapeQuotes (sanitizeCommand command).data))

/-- The `run-hyperv-cmd` handler: rate limit first (rejecting without any
safety evaluation), then the safety filter, then execution. -/
def runHypervCmd (hist : List Nat) (now : Nat) (command : String) : CmdOutcome × List Nat :=
  let r := isRateLimited now hist
  if r.1 then (.rateLimitError, r.2)
  else if (isCommandSafe command).safe then (.executed (cleanCommand command), r.2)
  else (.securityError, r.2)

/-! ## Task tracker (`preload.js`, tasks panel) -/

inductive TaskStatus where
  | running
  | success
  | error
  | cancelled
deriving DecidableEq, Repr

/-- A task record; `startTime`/`endTime` are `new Date()` timestamps in
milliseconds. -/
structure Task where
  id : Nat
  name : String
  target : String
  type : String
  status : TaskStatus
  progress : Int
  startTime : Nat
  endTime : Option Nat
deriving DecidableEq, Repr

/-- `createTask(name, target, type = 'operation')`: bump the counter,
prepend (`unshift`) a fresh running task with progress 0; returns the new
counter value (which is also the task id) and the new list. -/
def createTask (counter : Nat) (ts : List Task) (name target : String) (now : Nat) : Nat × List Task :=
  let taskId := counter + 1
  (taskId,
   { id := taskId, name := name, target := target, type := "operation",
     status := .running, progress := 0, startTime := now, endTime := none } :: ts)

/-- `updateTaskProgress(taskId, progress)`: the first task with the given id
(ids are unique in practice; `find` returns the first) is updated only when
it is `running`, its progress clamped by `Math.min(100, Math.max(0, p))`. -/
def updateTaskProgress : List Task → Nat → Int → List Task
  | [], _, _ => []
  | t :: ts, tid, p =>
    if t.id = tid then
      (if t.status = TaskStatus.running then
        { t with progress := min 100 (max 0 p) } :: ts
      else t :: ts)
    else t :: updateTaskProgress ts tid p

/-- `completeTask(taskId, success = true)`, list part: the first task with
the given id — whatever its status — gets `status` from the flag,
`progress = 100` and a fresh `endTime`. -/
def completeTask : List Task → Nat → Bool → Nat → List Task
  | [], _, _, _ => []
  | t :: ts, tid, succ, now =>
    if t.id = tid then
      { t with status := if succ then TaskStatus.success else TaskStatus.error,
               progress := 100, endTime := some now } :: ts
    else t :: completeTask ts tid succ now

/-- `completeTask`, timer part: the `setTimeout(..., 30000)` scheduled when
the task exists and `success` holds, as a `(taskId, fireTime)` pair. -/
def completeSchedule (ts : List Task) (tid : Nat) (succ : Bool) (now : Nat) : List (Nat × Nat) :=
  if ts.any (fun t => t.id == tid) && succ then [(tid, now + 30000)] else []

/-- The body of the 30-second timer: `findIndex` the task and `splice` it out
if it is still `success`. -/
def autoRemoveTask : List Task → Nat → List Task
  | [], _ => []
  | t :: ts, tid =>
    if t.id = tid then
      (if t.status = TaskStatus.success then ts else t :: ts)
    else t :: autoRemoveTask ts tid

/-- `cancelTask(taskId)`: only a `running` task transitions to `cancelled`
with a fresh `endTime`; `progress` is untouched. -/
def cancelTask : List Task → Nat → Nat → List Task
  | [], _, _ => []
  | t :: ts, tid, now =>
    if t.id = tid then
      (if t.status = TaskStatus.running then
        { t with status := TaskStatus.cancelled, endTime := some now } :: ts
      else t :: ts)
    else t :: cancelTask ts tid now

/-- `clearCompletedTasks()`: keep only the running tasks. -/
def clearCompletedTasks (ts : List Task) : List Task :=
  ts.filter (fun t => t.status == TaskStatus.running)

/-- The tracker's module-level state: `taskIdCounter` and `tasksList`. -/
structure TrackerState where
  counter : Nat
  tasks : List Task
deriving DecidableEq, Repr

/-- The operations the UI can drive the tracker with, timer firings
included. -/
inductive TrackerOp where
  | create (name target : String) (now : Nat)
  | update (tid : Nat) (p : Int)
  | complete (tid : Nat) (succ : Bool) (now : Nat)
  | cancel (tid : Nat) (now : Nat)
  | clear
  | autoRemove (tid : Nat)
deriving DecidableEq, Repr

def applyOp (s : TrackerState) : TrackerOp → TrackerState
  | .create name target now =>
    let r := createTask s.counter s.tasks name target now
    ⟨r.1, r.2⟩
  | .update tid p => ⟨s.counter, updateTaskProgress s.tasks tid p⟩
  | .complete tid succ now => ⟨s.counter, completeTask s.tasks tid succ now⟩
  | .cancel tid now => ⟨s.counter, cancelTask s.tasks tid now⟩
  | .clear => ⟨s.counter, clearCompletedTasks s.tasks⟩
  | .autoRemove tid => ⟨s.counter, autoRemoveTask s.tasks tid⟩

def runOps (s : TrackerState) (ops : List TrackerOp) : TrackerState :=
  ops.foldl applyOp s

def initState : TrackerState := ⟨0, []⟩

/-- The per-task state invariant: progress stays in `[0, 100]` and the
terminal states reached through `completeTask` carry progress 100. -/
def taskInv (t : Task) : Prop :=
  0 ≤ t.progress ∧ t.progress ≤ 100 ∧
    ((t.status = TaskStatus.success ∨ t.status = TaskStatus.error) → t.progress = 100)

/-- A concrete mid-flight running task, used by witnesses. -/
def sampleRunning : Task :=
  { id := 1, name := "Start Virtual Machine", target := "WebServer01", type := "operation",
    status := .running, progress := 7, startTime := 0, endTime := none }

/-- A concrete already-cancelled (terminal) task, used by witnesses. -/
def sampleCancelled : Task :=
  { id := 1, name := "Create VHD", target := "Disk01", type := "operation",
    status := .cancelled, progress := 40, startTime := 0, endTime := some 5 }

/-! ## Helper lemmas -/

theorem replaceGlobalAux_of_no_match (r : RE) :
    ∀ (f : Nat) (l : List Char), existsMatchB r l = false → replaceGlobalAux f r l = l := by
  intro f
  induction f with
  | zero => intro l _; rfl
  | succ f ih =>
    intro l hl
    cases l with
    | nil => rfl
    | cons c cs =>
      simp only [existsMatchB, Bool.or_eq_false_iff] at hl
      cases hm : matchLen r (c :: cs) with
      | some n => simp [hm] at hl
      | none => simp [replaceGlobalAux, hm, ih cs hl.2]

theorem replaceGlobal_of_no_match (r : RE) (l : List Char) (h : existsMatchB r l = false) :
    replaceGlobal r l = l :=
  replaceGlobalAux_of_no_match r l.length l h

theorem sanitizeStr_of_patternFree (s : String) (h : strPatternFree s = true) :
    sanitizeStr s = s := by
  simp only [strPatternFree, Bool.and_eq_true, Bool.not_eq_true'] at h
  obtain ⟨⟨h1, h2⟩, h3⟩ := h
  unfold sanitizeStr
  rw [replaceGlobal_of_no_match pScript s.data h1, replaceGlobal_of_no_match pJs s.data h2,
      replaceGlobal_of_no_match pOn s.data h3]

mutual

theorem sanitizeInput_of_patternFree : ∀ v : Value, patternFree v = true → sanitizeInput v = v
  | .str s, h => by
    simp only [patternFree] at h
    simp [sanitizeInput, sanitizeStr_of_patternFree s h]
  | .num _, _ => rfl
  | .bool _, _ => rfl
  | .null, _ => rfl
  | .undef, _ => rfl
  | .arr xs, h => by
    simp only [patternFree] at h
    simp [sanitizeInput, sanitizeArr_of_patternFree xs h]
  | .obj kvs, h => by
    simp only [patternFree] at h
    simp [sanitizeInput, sanitizeObj_of_patternFree kvs h]

theorem sanitizeArr_of_patternFree : ∀ xs : List Value, patternFreeArr xs = true → sanitizeArr xs = xs
  | [], _ => rfl
  | v :: vs, h => by
    simp only [patternFreeArr, Bool.and_eq_true] at h
    simp [sanitizeArr, sanitizeInput_of_patternFree v h.1, sanitizeArr_of_patternFree vs h.2]

theorem sanitizeObj_of_patternFree :
    ∀ kvs : List (String × Value), patternFreeObj kvs = true → sanitizeObj kvs = kvs
  | [], _ => rfl
  | (k, v) :: kvs, h => by
    simp only [patternFreeObj, Bool.and_eq_true] at h
    simp [sanitizeObj, sanitizeInput_of_patternFree v h.1, sanitizeObj_of_patternFree kvs h.2]

end

/-! ## Claims -/

/-- C1: every channel name outside the corresponding static allow-list makes
`invoke` reject with an authorization error (never reaching
`ipcRenderer.invoke`), makes `send` drop silently, and makes `on` register
nothing, returning a no-op unsubscribe closure; channel membership is an
exact, case-sensitive string test. -/
theorem C1_whitelist_fail_closed (channel : String) (args : List Value)
    (h1 : channel ∉ ALLOWED_INVOKE_CHANNELS)
    (h2 : channel ∉ ALLOWED_SEND_CHANNELS)
    (h3 : channel ∉ ALLOWED_RECEIVE_CHANNELS) :
    invoke channel args = .rejected ("IPC channel \"" ++ channel ++ "\" is not allowed")
  ∧ (∀ c a, invoke channel args ≠ .forwarded c a)
  ∧ send channel args = none
  ∧ apiOn channel = .noopUnsubscribe
  ∧ (∀ l : List String, isValidChannel channel l = true ↔ channel ∈ l) := by
  have hinv : invoke channel args = .rejected ("IPC channel \"" ++ channel ++ "\" is not allowed") := by
    simp [invoke, isValidChannel, h1]
  refine ⟨hinv, ?_, ?_, ?_, ?_⟩
  · intro c a hf
    rw [hinv] at hf
    exact InvokeOutcome.noConfusion hf
  · simp [send, isValidChannel, h2]
  · simp [apiOn, isValidChannel, h3]
  · intro l
    simp [isValidChannel]

/-- Witness for C1 at the unregistered channel name `drop-database`. -/
theorem C1_witness :
    invoke "drop-database" [] = .rejected "IPC channel \"drop-database\" is not allowed"
  ∧ send "drop-database" [] = none
  ∧ apiOn "drop-database" = .noopUnsubscribe := by
  have h := C1_whitelist_fail_closed "drop-database" [] (by decide) (by decide) (by decide)
  exact ⟨h.1, h.2.2.1, h.2.2.2.1⟩

/-- C2: a command matching at least one entry of `BLOCKED_PATTERNS` is
always classified unsafe — the deny scan runs before the allow-list logic,
so this holds even when the command also contains allow-listed verbs. -/
theorem C2_deny_list_precedence (command : String)
    (h : BLOCKED_PATTERNS.any (fun p => reTest p command) = true) :
    (isCommandSafe command).safe = false := by
  by_cases hc : command = "" <;> simp [isCommandSafe, hc, h]

/-- Witness for C2: an allow-listed VM verb concatenated with a destructive
delete-recurse pattern is rejected. -/
theorem C2_witness :
    BLOCKED_PATTERNS.any
        (fun p => reTest p "Start-VM -Name WebServer01; Remove-Item C:\\Data -Recurse") = true
  ∧ (isCommandSafe "Start-VM -Name WebServer01; Remove-Item C:\\Data -Recurse").safe = false :=
  ⟨by decide, C2_deny_list_precedence _ (by decide)⟩

/-- C3 (counterexample): the sanitizer's output can contain a blocked
pattern — deleting a `javascript:` match splices a fresh occurrence
together, so the universal guarantee fails. -/
theorem C3_counterexample :
    sanitizeInput (Value.str "jjavascript:avascript:") = Value.str "javascript:"
  ∧ containsSub "javascript:".data (sanitizeStr "jjavascript:avascript:").data = true
  ∧ reTest pJs (sanitizeStr "jjavascript:avascript:") = true :=
  ⟨rfl, by decide, by decide⟩

/-- C3 (amended): on the spec's test input — the concatenation of
`<script>alert(1)</script>`, `javascript:alert(1)` and `onclick=alert(1)` —
the sanitizer removes all three patterns and none of the three literal
substrings occurs in the output. -/
theorem C3_pattern_removal_on_test_input :
    sanitizeInput (Value.str ("<script>alert(1)</script>" ++ "javascript:alert(1)" ++ "onclick=alert(1)"))
      = Value.str "alert(1)alert(1)"
  ∧ containsSub "<script>alert(1)</script>".data "alert(1)alert(1)".data = false
  ∧ containsSub "javascript:alert(1)".data "alert(1)alert(1)".data = false
  ∧ containsSub "onclick=alert(1)".data "alert(1)alert(1)".data = false :=
  ⟨rfl, by decide, by decide, by decide⟩

/-- C4 (counterexample): `sanitize` is not idempotent — on
`jjavascript:avascript:` the first pass yields `javascript:` and the second
pass deletes it. -/
theorem C4_counterexample :
    sanitizeInput (sanitizeInput (Value.str "jjavascript:avascript:"))
      ≠ sanitizeInput (Value.str "jjavascript:avascript:") := by
  intro hEq
  have h1 : sanitizeInput (sanitizeInput (Value.str "jjavascript:avascript:")) = Value.str "" := rfl
  have h2 : sanitizeInput (Value.str "jjavascript:avascript:") = Value.str "javascript:" := rfl
  rw [h1, h2] at hEq
  exact absurd (Value.str.inj hEq) (by decide)

/-- C4 (amended): on every value whose strings are free of the three
blocked patterns the sanitizer is the identity, hence idempotent there;
idempotence fails in general (see the counterexample). -/
theorem C4_sanitizer_idempotent_on_pattern_free (x : Value) (h : patternFree x = true) :
    sanitizeInput (sanitizeInput x) = sanitizeInput x := by
  have hfix := sanitizeInput_of_patternFree x h
  rw [hfix, hfix]

/-- Witness for C4 (amended) at a pattern-free object value. -/
theorem C4_witness :
    patternFree (Value.obj [("msg", Value.str "hello"), ("n", Value.num 3)]) = true
  ∧ sanitizeInput (sanitizeInput (Value.obj [("msg", Value.str "hello"), ("n", Value.num 3)]))
      = sanitizeInput (Value.obj [("msg", Value.str "hello"), ("n", Value.num 3)]) :=
  ⟨rfl, C4_sanitizer_idempotent_on_pattern_free _ rfl⟩

/-- C5 (counterexample): `hello` is non-empty, clears the deny-list, has
zero verb-noun tokens, and is neither a variable assignment nor an
output-formatting expression — yet the filter permits it (the zero-token
branch falls through to the default safe verdict). -/
theorem C5_counterexample :
    "hello" ≠ ""
  ∧ BLOCKED_PATTERNS.any (fun p => reTest p "hello") = false
  ∧ (globalMatches cmdletRE "hello".data).length = 0
  ∧ reTestStart varAssignRE "hello" = false
  ∧ reTest outputFmtRE "hello" = false
  ∧ isCommandSafe "hello" = { safe := true, reason := none } :=
  ⟨by decide, by decide, by decide, by decide, by decide, by decide⟩

/-- C5 (amended): every non-empty command that clears the deny-list and
contains zero verb-noun tokens is permitted — variable assignments and
output-formatting expressions through the early allowance, everything else
through the default safe verdict; the narrow allowance is not exclusive. -/
theorem C5_zero_token_default_safe (command : String)
    (hne : command ≠ "")
    (hdeny : BLOCKED_PATTERNS.any (fun p => reTest p command) = false)
    (hzero : (globalMatches cmdletRE command.data).length = 0) :
    (isCommandSafe command).safe = true := by
  simp [isCommandSafe, hne, hdeny, hzero]

/-- Witness for C5 (amended): both a variable assignment and a plain
zero-token command are permitted. -/
theorem C5_witness :
    (isCommandSafe "$x = 5").safe = true ∧ (isCommandSafe "hello world").safe = true :=
  ⟨C5_zero_token_default_safe "$x = 5" (by decide) (by decide) (by decide),
   C5_zero_token_default_safe "hello world" (by decide) (by decide) (by decide)⟩

theorem isRateLimited_pass (now : Nat) (h : List Nat)
    (hkeep : ∀ t ∈ h, now ≤ t + RATE_LIMIT_WINDOW)
    (hlen : h.length < RATE_LIMIT_MAX) :
    isRateLimited now h = (false, h ++ [now]) := by
  have hp : h.dropWhile (fun t => decide (t < now - RATE_LIMIT_WINDOW)) = h := by
    cases h with
    | nil => rfl
    | cons t ts =>
      rw [List.dropWhile_cons]
      have hks := hkeep t (List.mem_cons_self t ts)
      have : ¬(t < now - RATE_LIMIT_WINDOW) := by omega
      simp [this]
  simp [isRateLimited, hp, Nat.not_le.mpr hlen]

theorem isRateLimited_limited (now : Nat) (h : List Nat)
    (hkeep : ∀ t ∈ h, now ≤ t + RATE_LIMIT_WINDOW)
    (hlen : RATE_LIMIT_MAX ≤ h.length) :
    isRateLimited now h = (true, h) := by
  have hp : h.dropWhile (fun t => decide (t < now - RATE_LIMIT_WINDOW)) = h := by
    cases h with
    | nil => rfl
    | cons t ts =>
      rw [List.dropWhile_cons]
      have hks := hkeep t (List.mem_cons_self t ts)
      have : ¬(t < now - RATE_LIMIT_WINDOW) := by omega
      simp [this]
  simp [isRateLimited, hp, hlen]

theorem isRateLimited_after_window (now : Nat) (h : List Nat)
    (hall : ∀ t ∈ h, t + RATE_LIMIT_WINDOW < now) :
    isRateLimited now h = (false, [now]) := by
  have hp : h.dropWhile (fun t => decide (t < now - RATE_LIMIT_WINDOW)) = [] := by
    rw [List.dropWhile_eq_nil_iff]
    intro t ht
    have := hall t ht
    simp
    omega
  simp [isRateLimited, hp, RATE_LIMIT_MAX]

theorem runCalls_all_pass : ∀ (ns h : List Nat),
    (∀ a ∈ h ++ ns, ∀ b ∈ h ++ ns, b ≤ a + RATE_LIMIT_WINDOW) →
    h.length + ns.length ≤ RATE_LIMIT_MAX →
    runCalls h ns = (List.replicate ns.length false, h ++ ns) := by
  intro ns
  induction ns with
  | nil => intro h _ _; simp [runCalls]
  | cons n ns ih =>
    intro h hw hlen
    have hkeep : ∀ t ∈ h, n ≤ t + RATE_LIMIT_WINDOW := fun t ht =>
      hw t (List.mem_append_left _ ht) n (List.mem_append_right _ (List.mem_cons_self n ns))
    have hlt : h.length < RATE_LIMIT_MAX := by
      simp only [List.length_cons] at hlen
      omega
    have h1 := isRateLimited_pass n h hkeep hlt
    have hw2 : ∀ a ∈ (h ++ [n]) ++ ns, ∀ b ∈ (h ++ [n]) ++ ns, b ≤ a + RATE_LIMIT_WINDOW := by
      simpa [List.append_assoc] using hw
    have hlen2 : (h ++ [n]).length + ns.length ≤ RATE_LIMIT_MAX := by
      simp only [List.length_append, List.length_singleton, List.length_cons, List.length_nil] at *
      omega
    have h2 := ih (h ++ [n]) hw2 hlen2
    simp [runCalls, h1, h2, List.replicate_succ, List.append_assoc]

/-- C6: from an empty history, `RATE_LIMIT_MAX` calls whose times lie within
one `RATE_LIMIT_WINDOW` of each other all pass the rate limiter; a further
call still inside the window of every recorded time is rejected — and the
`run-hyperv-cmd` handler then returns the rate-limit error for every command,
before any safety evaluation; once the window has elapsed past every recorded
time, a new call passes again. -/
theorem C6_rate_limiter_boundary (ts : List Nat) (n11 n12 : Nat)
    (hlen : ts.length = RATE_LIMIT_MAX)
    (hwin : ∀ a ∈ ts, ∀ b ∈ ts, b ≤ a + RATE_LIMIT_WINDOW)
    (h11 : ∀ a ∈ ts, n11 ≤ a + RATE_LIMIT_WINDOW)
    (h12 : ∀ a ∈ ts, a + RATE_LIMIT_WINDOW < n12) :
    runCalls [] ts = (List.replicate RATE_LIMIT_MAX false, ts)
  ∧ (∀ command : String, runHypervCmd ts n11 command = (CmdOutcome.rateLimitError, ts))
  ∧ isRateLimited n11 ts = (true, ts)
  ∧ isRateLimited n12 ts = (false, [n12]) := by
  have h1 : runCalls [] ts = (List.replicate RATE_LIMIT_MAX false, ts) := by
    have := runCalls_all_pass ts [] (by simpa using hwin) (by simp [hlen])
    simpa [hlen] using this
  have h2 : isRateLimited n11 ts = (true, ts) :=
    isRateLimited_limited n11 ts h11 (le_of_eq hlen.symm)
  refine ⟨h1, ?_, h2, isRateLimited_after_window n12 ts h12⟩
  intro command
  simp [runHypervCmd, h2]

/-- Witness for C6: ten calls at 0, 100, …, 900 ms all pass; an eleventh at
1000 ms is rejected independent of the command; a call at 2001 ms passes. -/
theorem C6_witness :
    runCalls [] [0, 100, 200, 300, 400, 500, 600, 700, 800, 900]
      = (List.replicate RATE_LIMIT_MAX false, [0, 100, 200, 300, 400, 500, 600, 700, 800, 900])
  ∧ runHypervCmd [0, 100, 200, 300, 400, 500, 600, 700, 800, 900] 1000 "Get-VM"
      = (CmdOutcome.rateLimitError, [0, 100, 200, 300, 400, 500, 600, 700, 800, 900])
  ∧ isRateLimited 2001 [0, 100, 200, 300, 400, 500, 600, 700, 800, 900] = (false, [2001]) := by
  have h := C6_rate_limiter_boundary [0, 100, 200, 300, 400, 500, 600, 700, 800, 900] 1000 2001
    (by decide) (by decide) (by decide) (by decide)
  exact ⟨h.1, h.2.1 "Get-VM", h.2.2.2⟩

theorem updateTaskProgress_of_not_found (ts : List Task) (tid : Nat) (p : Int)
    (h : ∀ t ∈ ts, t.id ≠ tid) : updateTaskProgress ts tid p = ts := by
  induction ts with
  | nil => rfl
  | cons t ts ih =>
    have ht : t.id ≠ tid := h t (List.mem_cons_self t ts)
    simp [updateTaskProgress, ht, ih (fun u hu => h u (List.mem_cons_of_mem t hu))]

theorem updateTaskProgress_found (pre : List Task) (t : Task) (post : List Task) (tid : Nat) (p : Int)
    (hpre : ∀ u ∈ pre, u.id ≠ tid) (hid : t.id = tid) :
    updateTaskProgress (pre ++ t :: post) tid p
      = pre ++ (if t.status = TaskStatus.running then { t with progress := min 100 (max 0 p) }
                else t) :: post := by
  induction pre with
  | nil =>
    by_cases hs : t.status = TaskStatus.running <;>
      simp [updateTaskProgress, hid, hs]
  | cons u pre ih =>
    have hu : u.id ≠ tid := hpre u (List.mem_cons_self u pre)
    simp [updateTaskProgress, hu, ih (fun v hv => hpre v (List.mem_cons_of_mem u hv))]

theorem completeTask_of_not_found (ts : List Task) (tid : Nat) (succ : Bool) (now : Nat)
    (h : ∀ t ∈ ts, t.id ≠ tid) : completeTask ts tid succ now = ts := by
  induction ts with
  | nil => rfl
  | cons t ts ih =>
    have ht : t.id ≠ tid := h t (List.mem_cons_self t ts)
    simp [completeTask, ht, ih (fun u hu => h u (List.mem_cons_of_mem t hu))]

theorem completeTask_found (pre : List Task) (t : Task) (post : List Task) (tid : Nat)
    (succ : Bool) (now : Nat)
    (hpre : ∀ u ∈ pre, u.id ≠ tid) (hid : t.id = tid) :
    completeTask (pre ++ t :: post) tid succ now
      = pre ++ { t with status := if succ then TaskStatus.success else TaskStatus.error,
                        progress := 100, endTime := some now } :: post := by
  induction pre with
  | nil => simp [completeTask, hid]
  | cons u pre ih =>
    have hu : u.id ≠ tid := hpre u (List.mem_cons_self u pre)
    simp [completeTask, hu, ih (fun v hv => hpre v (List.mem_cons_of_mem u hv))]

theorem completeSchedule_of_not_found (ts : List Task) (tid : Nat) (succ : Bool) (now : Nat)
    (h : ∀ t ∈ ts, t.id ≠ tid) : completeSchedule ts tid succ now = [] := by
  have hany : ts.any (fun t => t.id == tid) = false := by
    rw [List.any_eq_false]
    intro t ht
    simpa using h t ht
  simp [completeSchedule, hany]

theorem completeSchedule_found (ts : List Task) (tid : Nat) (succ : Bool) (now : Nat)
    (t : Task) (hmem : t ∈ ts) (hid : t.id = tid) :
    completeSchedule ts tid succ now = (if succ then [(tid, now + 30000)] else []) := by
  have hany : ts.any (fun u => u.id == tid) = true :=
    List.any_eq_true.mpr ⟨t, hmem, by simp [hid]⟩
  cases succ <;> simp [completeSchedule, hany]

theorem autoRemoveTask_found (pre : List Task) (t : Task) (post : List Task) (tid : Nat)
    (hpre : ∀ u ∈ pre, u.id ≠ tid) (hid : t.id = tid) (hs : t.status = TaskStatus.success) :
    autoRemoveTask (pre ++ t :: post) tid = pre ++ post := by
  induction pre with
  | nil => simp [autoRemoveTask, hid, hs]
  | cons u pre ih =>
    have hu : u.id ≠ tid := hpre u (List.mem_cons_self u pre)
    simp [autoRemoveTask, hu, ih (fun v hv => hpre v (List.mem_cons_of_mem u hv))]

/-- C7: `updateProgress` is a no-op when no task has the id or the task is
not running; on a running task it stores exactly the clamped progress —
which always lies in `[0, 100]`, with 150 clamped to 100 and -5 to 0 — and
changes no other field and no other task. -/
theorem C7_update_progress_contract (ts : List Task) (tid : Nat) (p : Int) :
    ((∀ t ∈ ts, t.id ≠ tid) → updateTaskProgress ts tid p = ts)
  ∧ (∀ pre t post, ts = pre ++ t :: post → (∀ u ∈ pre, u.id ≠ tid) → t.id = tid →
        (t.status ≠ TaskStatus.running → updateTaskProgress ts tid p = ts)
      ∧ (t.status = TaskStatus.running →
           updateTaskProgress ts tid p = pre ++ { t with progress := min 100 (max 0 p) } :: post))
  ∧ (0 ≤ min 100 (max 0 p) ∧ min 100 (max 0 p) ≤ 100)
  ∧ min (100 : Int) (max 0 150) = 100 ∧ min (100 : Int) (max 0 (-5)) = 0 := by
  refine ⟨updateTaskProgress_of_not_found ts tid p, ?_,
    ⟨le_min (by norm_num) (le_max_left 0 p), min_le_left _ _⟩, by norm_num, by norm_num⟩
  intro pre t post hts hpre hid
  subst hts
  have h := updateTaskProgress_found pre t post tid p hpre hid
  constructor
  · intro hs
    rw [h, if_neg hs]
  · intro hs
    rw [h, if_pos hs]

/-- Witness for C7: clamping at 150 and -5 on a running task, and the no-op
on an unknown id. -/
theorem C7_witness :
    updateTaskProgress [sampleRunning] 1 150 = [{ sampleRunning with progress := 100 }]
  ∧ updateTaskProgress [sampleRunning] 1 (-5) = [{ sampleRunning with progress := 0 }]
  ∧ updateTaskProgress [sampleRunning] 2 55 = [sampleRunning] := by
  have h150 := ((C7_update_progress_contract [sampleRunning] 1 150).2.1 [] sampleRunning []
    rfl (by simp) rfl).2 rfl
  have hm5 := ((C7_update_progress_contract [sampleRunning] 1 (-5)).2.1 [] sampleRunning []
    rfl (by simp) rfl).2 rfl
  have hnone := (C7_update_progress_contract [sampleRunning] 2 55).1 (by decide)
  refine ⟨?_, ?_, hnone⟩
  · rw [h150]; norm_num
  · rw [hm5]; norm_num

theorem mem_updateTaskProgress (ts : List Task) (tid : Nat) (p : Int) :
    ∀ u ∈ updateTaskProgress ts tid p,
      u ∈ ts ∨ ∃ t ∈ ts, t.status = TaskStatus.running ∧
        u = { t with progress := min 100 (max 0 p) } := by
  induction ts with
  | nil => intro u hu; simp [updateTaskProgress] at hu
  | cons t ts ih =>
    intro u hu
    by_cases hid : t.id = tid
    · by_cases hs : t.status = TaskStatus.running
      · simp only [updateTaskProgress, if_pos hid, if_pos hs, List.mem_cons] at hu
        rcases hu with rfl | hu
        · exact Or.inr ⟨t, List.mem_cons_self t ts, hs, rfl⟩
        · exact Or.inl (List.mem_cons_of_mem t hu)
      · simp only [updateTaskProgress, if_pos hid, if_neg hs] at hu
        exact Or.inl hu
    · simp only [updateTaskProgress, if_neg hid, List.mem_cons] at hu
      rcases hu with rfl | hu
      · exact Or.inl (List.mem_cons_self u ts)
      · rcases ih u hu with h1 | ⟨t2, ht2, hs2, rfl⟩
        · exact Or.inl (List.mem_cons_of_mem t h1)
        · exact Or.inr ⟨t2, List.mem_cons_of_mem t ht2, hs2, rfl⟩

theorem mem_completeTask (ts : List Task) (tid : Nat) (succ : Bool) (now : Nat) :
    ∀ u ∈ completeTask ts tid succ now,
      u ∈ ts ∨ ∃ t ∈ ts,
        u = { t with status := if succ then TaskStatus.success else TaskStatus.error,
                     progress := 100, endTime := some now } := by
  induction ts with
  | nil => intro u hu; simp [completeTask] at hu
  | cons t ts ih =>
    intro u hu
    by_cases hid : t.id = tid
    · simp only [completeTask, if_pos hid, List.mem_cons] at hu
      rcases hu with rfl | hu
      · exact Or.inr ⟨t, List.mem_cons_self t ts, rfl⟩
      · exact Or.inl (List.mem_cons_of_mem t hu)
    · simp only [completeTask, if_neg hid, List.mem_cons] at hu
      rcases hu with rfl | hu
      · exact Or.inl (List.mem_cons_self u ts)
      · rcases ih u hu with h1 | ⟨t2, ht2, rfl⟩
        · exact Or.inl (List.mem_cons_of_mem t h1)
        · exact Or.inr ⟨t2, List.mem_cons_of_mem t ht2, rfl⟩

theorem mem_cancelTask (ts : List Task) (tid now : Nat) :
    ∀ u ∈ cancelTask ts tid now,
      u ∈ ts ∨ ∃ t ∈ ts, t.status = TaskStatus.running ∧
        u = { t with status := TaskStatus.cancelled, endTime := some now } := by
  induction ts with
  | nil => intro u hu; simp [cancelTask] at hu
  | cons t ts ih =>
    intro u hu
    by_cases hid : t.id = tid
    · by_cases hs : t.status = TaskStatus.running
      · simp only [cancelTask, if_pos hid, if_pos hs, List.mem_cons] at hu
        rcases hu with rfl | hu
        · exact Or.inr ⟨t, List.mem_cons_self t ts, hs, rfl⟩
        · exact Or.inl (List.mem_cons_of_mem t hu)
      · simp only [cancelTask, if_pos hid, if_neg hs] at hu
        exact Or.inl hu
    · simp only [cancelTask, if_neg hid, List.mem_cons] at hu
      rcases hu with rfl | hu
      · exact Or.inl (List.mem_cons_self u ts)
      · rcases ih u hu with h1 | ⟨t2, ht2, hs2, rfl⟩
        · exact Or.inl (List.mem_cons_of_mem t h1)
        · exact Or.inr ⟨t2, List.mem_cons_of_mem t ht2, hs2, rfl⟩

theorem mem_autoRemoveTask (ts : List Task) (tid : Nat) :
    ∀ u ∈ autoRemoveTask ts tid, u ∈ ts := by
  induction ts with
  | nil => intro u hu; simp [autoRemoveTask] at hu
  | cons t ts ih =>
    intro u hu
    by_cases hid : t.id = tid
    · by_cases hs : t.status = TaskStatus.success
      · simp only [autoRemoveTask, if_pos hid, if_pos hs] at hu
        exact List.mem_cons_of_mem t hu
      · simp only [autoRemoveTask, if_pos hid, if_neg hs] at hu
        exact hu
    · simp only [autoRemoveTask, if_neg hid, List.mem_cons] at hu
      rcases hu with rfl | hu
      · exact List.mem_cons_self u ts
      · exact List.mem_cons_of_mem t (ih u hu)

theorem taskInv_applyOp (s : TrackerState) (op : TrackerOp)
    (h : ∀ t ∈ s.tasks, taskInv t) : ∀ t ∈ (applyOp s op).tasks, taskInv t := by
  cases op with
  | create name target now =>
    intro u hu
    simp only [applyOp, createTask, List.mem_cons] at hu
    rcases hu with rfl | hu
    · exact ⟨by norm_num, by norm_num, by intro hc; rcases hc with hc | hc <;> exact TaskStatus.noConfusion hc⟩
    · exact h u hu
  | update tid p =>
    intro u hu
    rcases mem_updateTaskProgress s.tasks tid p u hu with h1 | ⟨t, ht, hs, rfl⟩
    · exact h u h1
    · refine ⟨le_min (by norm_num) (le_max_left 0 p), min_le_left _ _, ?_⟩
      intro hc
      rcases hc with hc | hc <;> (rw [show ({ t with progress := min 100 (max 0 p) } : Task).status = t.status from rfl, hs] at hc; exact TaskStatus.noConfusion hc)
  | complete tid succ now =>
    intro u hu
    rcases mem_completeTask s.tasks tid succ now u hu with h1 | ⟨t, ht, rfl⟩
    · exact h u h1
    · exact ⟨by norm_num, by norm_num, fun _ => rfl⟩
  | cancel tid now =>
    intro u hu
    rcases mem_cancelTask s.tasks tid now u hu with h1 | ⟨t, ht, hs, rfl⟩
    · exact h u h1
    · have := h t ht
      refine ⟨this.1, this.2.1, ?_⟩
      intro hc
      rcases hc with hc | hc <;> exact TaskStatus.noConfusion hc
  | clear =>
    intro u hu
    exact h u (List.mem_of_mem_filter hu)
  | autoRemove tid =>
    intro u hu
    exact h u (mem_autoRemoveTask s.tasks tid u hu)

theorem taskInv_runOps (ops : List TrackerOp) :
    ∀ s : TrackerState, (∀ t ∈ s.tasks, taskInv t) → ∀ t ∈ (runOps s ops).tasks, taskInv t := by
  induction ops with
  | nil => intro s h; simpa [runOps] using h
  | cons op ops ih =>
    intro s h
    have : runOps s (op :: ops) = runOps (applyOp s op) ops := rfl
    rw [this]
    exact ih (applyOp s op) (taskInv_applyOp s op h)

theorem cancelTask_progress_map (ts : List Task) (tid now : Nat) :
    (cancelTask ts tid now).map Task.progress = ts.map Task.progress := by
  induction ts with
  | nil => rfl
  | cons t ts ih =>
    by_cases hid : t.id = tid
    · by_cases hs : t.status = TaskStatus.running <;> simp [cancelTask, hid, hs]
    · simp [cancelTask, hid, ih]

/-- C8 (counterexample): progress is not monotonically non-decreasing while
running — after `updateProgress(1, 50)` a later `updateProgress(1, 30)`
stores 30 while the task is still running. -/
theorem C8_counterexample :
    ∃ t2 ∈ (runOps initState [TrackerOp.create "Start Virtual Machine" "WebServer01" 0,
        TrackerOp.update 1 50]).tasks,
    ∃ t3 ∈ (runOps initState [TrackerOp.create "Start Virtual Machine" "WebServer01" 0,
        TrackerOp.update 1 50, TrackerOp.update 1 30]).tasks,
      t2.id = t3.id ∧ t2.status = TaskStatus.running ∧ t3.status = TaskStatus.running ∧
      t3.progress < t2.progress := by
  decide

/-- C8 (amended): across every sequence of tracker operations from the
initial state, every task's progress lies in `[0, 100]` and every task in a
`success` or `error` state has progress exactly 100 (the monotonicity part
of the claim is false — progress may decrease while running — and
`cancelTask` freezes progress: it never changes any task's progress). -/
theorem C8_progress_invariant_amended (ops : List TrackerOp) :
    (∀ t ∈ (runOps initState ops).tasks, taskInv t)
  ∧ (∀ ts tid now, (cancelTask ts tid now).map Task.progress = ts.map Task.progress) :=
  ⟨taskInv_runOps ops initState (by simp [initState]),
   fun ts tid now => cancelTask_progress_map ts tid now⟩

/-- Witness for C8 (amended) after a create and an update. -/
theorem C8_witness :
    taskInv { id := 1, name := "Start Virtual Machine", target := "WebServer01",
              type := "operation", status := TaskStatus.running, progress := 50,
              startTime := 0, endTime := none } :=
  (C8_progress_invariant_amended [TrackerOp.create "Start Virtual Machine" "WebServer01" 0,
      TrackerOp.update 1 50]).1 _ (by decide)

/-- C9: on an existing task, `complete(taskId, true)` sets status `success`,
progress 100 and stamps `endTime`, and schedules removal exactly 30 seconds
later; when that timer fires, no task with the id remains in the list.  On a
missing id it is a no-op and schedules nothing. -/
theorem C9_complete_and_auto_removal (ts : List Task) (tid : Nat) (now : Nat) :
    ((∀ t ∈ ts, t.id ≠ tid) →
       completeTask ts tid true now = ts ∧ completeSchedule ts tid true now = [])
  ∧ (∀ pre t post, ts = pre ++ t :: post → (∀ u ∈ pre, u.id ≠ tid) → t.id = tid →
       completeTask ts tid true now
         = pre ++ { t with status := TaskStatus.success, progress := 100,
                           endTime := some now } :: post
     ∧ completeSchedule ts tid true now = [(tid, now + 30000)]
     ∧ ((ts.map Task.id).Nodup →
          ∀ u ∈ autoRemoveTask (completeTask ts tid true now) tid, u.id ≠ tid)) := by
  constructor
  · intro h
    exact ⟨completeTask_of_not_found ts tid true now h, completeSchedule_of_not_found ts tid true now h⟩
  · intro pre t post hts hpre hid
    subst hts
    have hc : completeTask (pre ++ t :: post) tid true now
        = pre ++ { t with status := TaskStatus.success, progress := 100,
                          endTime := some now } :: post := by
      simpa using completeTask_found pre t post tid true now hpre hid
    have hsch : completeSchedule (pre ++ t :: post) tid true now = [(tid, now + 30000)] := by
      simpa using completeSchedule_found (pre ++ t :: post) tid true now t
        (List.mem_append_right pre (List.mem_cons_self t post)) hid
    refine ⟨hc, hsch, ?_⟩
    intro hnd u hu
    rw [hc] at hu
    have hrem : autoRemoveTask
        (pre ++ { t with status := TaskStatus.success, progress := 100,
                         endTime := some now } :: post) tid = pre ++ post :=
      autoRemoveTask_found pre _ post tid hpre hid rfl
    rw [hrem] at hu
    have hpost : ∀ v ∈ post, v.id ≠ tid := by
      have hnd2 : (pre.map Task.id ++ t.id :: post.map Task.id).Nodup := by
        simpa using hnd
      have hni : t.id ∉ pre.map Task.id ++ post.map Task.id :=
        (List.nodup_cons.mp (List.nodup_middle.mp hnd2)).1
      intro v hv hvid
      apply hni
      apply List.mem_append_right
      have hvm : v.id ∈ post.map Task.id := List.mem_map_of_mem Task.id hv
      rwa [hvid, ← hid] at hvm
    rcases List.mem_append.mp hu with h1 | h1
    · exact hpre u h1
    · exact hpost u h1

/-- Witness for C9: completing the sample running task stamps everything,
schedules the removal 30000 ms later, and after the timer fires no task with
its id remains. -/
theorem C9_witness :
    completeTask [sampleRunning] 1 true 1000
      = [{ sampleRunning with
             status := TaskStatus.success, progress := 100, endTime := some 1000 }]
  ∧ completeSchedule [sampleRunning] 1 true 1000 = [(1, 1000 + 30000)]
  ∧ ∀ u ∈ autoRemoveTask (completeTask [sampleRunning] 1 true 1000) 1, u.id ≠ 1 := by
  have h := (C9_complete_and_auto_removal [sampleRunning] 1 1000).2 [] sampleRunning []
    rfl (by simp) rfl
  exact ⟨by simpa using h.1, h.2.1, h.2.2 (by decide)⟩

/-- C10: `complete` is not restricted to running tasks — on any existing
task, terminal ones included, it overwrites the status according to the
success flag, sets progress 100, restamps `endTime`, and schedules a fresh
30-second removal exactly when the flag is true. -/
theorem C10_complete_overwrites_terminal (ts : List Task) (tid : Nat) (succ : Bool) (now : Nat)
    (pre : List Task) (t : Task) (post : List Task)
    (hts : ts = pre ++ t :: post) (hpre : ∀ u ∈ pre, u.id ≠ tid) (hid : t.id = tid) :
    completeTask ts tid succ now
      = pre ++ { t with status := if succ then TaskStatus.success else TaskStatus.error,
                        progress := 100, endTime := some now } :: post
  ∧ completeSchedule ts tid succ now = (if succ then [(tid, now + 30000)] else []) := by
  subst hts
  exact ⟨completeTask_found pre t post tid succ now hpre hid,
    completeSchedule_found (pre ++ t :: post) tid succ now t
      (List.mem_append_right pre (List.mem_cons_self t post)) hid⟩

/-- Witness for C10: re-completing an already-cancelled task overwrites its
terminal state and schedules a fresh removal. -/
theorem C10_witness :
    completeTask [sampleCancelled] 1 true 2000
      = [{ sampleCancelled with
             status := TaskStatus.success, progress := 100, endTime := some 2000 }]
  ∧ completeSchedule [sampleCancelled] 1 true 2000 = [(1, 2000 + 30000)] := by
  have h := C10_complete_overwrites_terminal [sampleCancelled] 1 true 2000 [] sampleCancelled []
    rfl (by simp) rfl
  exact ⟨by simpa using h.1, by simpa using h.2⟩

end CoreLayer
